import Mathlib

/-!
Verification development for `gcpdiag/queries/notebooks.py`: queries related to
GCP Vertex AI Workbench Notebooks.

The Python module is a thin query adapter.  We embed it shallowly:

* JSON-like records become association lists of string key/value pairs (only
  string-valued fields are ever consulted by this module);
* the external collaborators (`apis.is_enabled`, the API client produced by
  `apis.get_api` together with `query.execute`) become an explicit environment
  `NotebooksEnv` of pure functions;
* observable side effects (log lines, issued network calls) are collected into
  an explicit event trace;
* Python exceptions become an `Except` result: `RuntimeError`, `ValueError`
  (raised by the validating `enum.Enum` constructor) and `utils.GcpApiError`
  (which wraps a `googleapiclient.errors.HttpError`) are the error shapes;
* the `caching.cached_api_call` decorator (whose implementation lives outside
  this file's sources) is modelled from the spec as an explicit memo table.
-/

namespace Notebooks

/-- Module constant `HEALTH_STATE_KEY = 'healthState'`. -/
def HEALTH_STATE_KEY : String := "healthState"

/-- Module constant `INSTANCES_KEY = 'instances'`. -/
def INSTANCES_KEY : String := "instances"

/-- Module constant `NAME_KEY = 'name'`. -/
def NAME_KEY : String := "name"

/-- A JSON object as returned by the notebooks API, restricted to its
string-valued fields (the only ones this module reads). Keys are unique in a
JSON object; lookup returns the first match. -/
abbrev Record := List (String × String)

/-- Python dict lookup: `d[k]` returns the value under `k`, `none` models a
`KeyError` / `k not in d`. -/
def alookup {α β : Type} [DecidableEq α] : List (α × β) → α → Option β
  | [], _ => none
  | (k, v) :: rest, key => if k = key then some v else alookup rest key

/-- Python dict assignment `d[k] = v`: replaces the value in place when the key
is already present (keeping its position), appends otherwise. A Python dict
holds each key at most once, so replacing the first occurrence is exact. -/
def dictInsert {β : Type} : List (String × β) → String → β → List (String × β)
  | [], key, v => [(key, v)]
  | (k, w) :: rest, key, v =>
    if k = key then (key, v) :: rest else (k, w) :: dictInsert rest key v

/-- One non-overlapping left-to-right pass replacing every occurrence of the
literal pattern `pat` by `rep`, as `re.sub` does for a pattern without
metacharacters (after a match the scan resumes right after the matched text). -/
def reSubList (pat rep : List Char) : List Char → List Char
  | [] => []
  | c :: rest =>
    if pat.isPrefixOf (c :: rest) then
      rep ++ reSubList pat rep (rest.drop (pat.length - 1))
    else
      c :: reSubList pat rep rest
termination_by s => s.length
decreasing_by
  · simp [List.length_drop]
    omega
  · simp

/-- Deletion of a start-anchored literal pattern, as `re.sub` does for a
pattern of the form `^lit` replaced by the empty string: at most one match, at
position 0. -/
def reSubStart (pat : List Char) (s : List Char) : List Char :=
  if pat.isPrefixOf s then s.drop pat.length else s

/-- String wrapper for `reSubList`. -/
def reSub (pat rep s : String) : String := ⟨reSubList pat.data rep.data s.data⟩

/-- String wrapper for `reSubStart`. -/
def reSubAnchored (pat s : String) : String := ⟨reSubStart pat.data s.data⟩

/-- The five health states of `InstanceHealthStateEnum`, mirroring the API's
vocabulary. -/
inductive InstanceHealthStateEnum where
  | HEALTH_STATE_UNSPECIFIED
  | HEALTHY
  | UNHEALTHY
  | AGENT_NOT_INSTALLED
  | AGENT_NOT_RUNNING
deriving DecidableEq, Repr

/-- The string value backing each enum member (`member.value`, also its
`__str__`). -/
def InstanceHealthStateEnum.value : InstanceHealthStateEnum → String
  | .HEALTH_STATE_UNSPECIFIED => "HEALTH_STATE_UNSPECIFIED"
  | .HEALTHY => "HEALTHY"
  | .UNHEALTHY => "UNHEALTHY"
  | .AGENT_NOT_INSTALLED => "AGENT_NOT_INSTALLED"
  | .AGENT_NOT_RUNNING => "AGENT_NOT_RUNNING"

/-- The validating constructor `InstanceHealthStateEnum(s)`: looks a member up
by value; `none` models the `ValueError` Python raises for a string outside the
five-tag vocabulary. -/
def InstanceHealthStateEnum.ofValue? (s : String) : Option InstanceHealthStateEnum :=
  if s = "HEALTH_STATE_UNSPECIFIED" then some .HEALTH_STATE_UNSPECIFIED
  else if s = "HEALTHY" then some .HEALTHY
  else if s = "UNHEALTHY" then some .UNHEALTHY
  else if s = "AGENT_NOT_INSTALLED" then some .AGENT_NOT_INSTALLED
  else if s = "AGENT_NOT_RUNNING" then some .AGENT_NOT_RUNNING
  else none

/-- A Vertex AI Workbench notebook instance: an immutable view over the raw
record. The constructor (`__init__`) just stores `project_id` and
`resource_data`; it performs no validation. -/
structure Instance where
  project_id : String
  resource_data : Record
deriving DecidableEq, Repr

/-- Accessor `full_path`: reads `resource_data['name']`; `none` models the
`KeyError` raised when the field is absent. -/
def Instance.full_path (i : Instance) : Option String :=
  alookup i.resource_data NAME_KEY

/-- Accessor `short_path`: three `re.sub` rewrites of `full_path`, stripping a
leading `projects/` and replacing every `/locations/` and `/instances/` by `/`.
(The source also logs nothing here; propagates the `KeyError` of `full_path`.) -/
def Instance.short_path (i : Instance) : Option String :=
  (Instance.full_path i).map (fun path =>
    let path := reSubAnchored "projects/" path
    let path := reSub "/locations/" "/" path
    reSub "/instances/" "/" path)

/-- Accessor `name`: reads `resource_data['name']` (after an informational log
of the raw record, which we drop); `none` models the `KeyError` when absent. -/
def Instance.name (i : Instance) : Option String :=
  alookup i.resource_data NAME_KEY

/-- An HTTP-level failure raised by `query.execute`
(`googleapiclient.errors.HttpError`); its payload is opaque to this module. -/
structure HttpError where
  code : Nat
deriving DecidableEq, Repr

/-- The exceptions the two query functions can raise: `RuntimeError` for a
malformed upstream response, `utils.GcpApiError` wrapping the original
`HttpError`, and `ValueError` from the validating enum constructor. -/
inductive QueryError where
  | runtimeError (msg : String)
  | gcpApiError (cause : HttpError)
  | valueError (badValue : String)
deriving DecidableEq, Repr

/-- Observable side effects: a log line at info or error level, or an issued
network call (`query.execute`). -/
inductive Event where
  | logInfo (msg : String)
  | logError (msg : String)
  | apiCall (desc : String)
deriving DecidableEq, Repr

/-- Holds if a trace contains no issued network call. -/
def noNetworkCall (evs : List Event) : Prop :=
  ∀ desc, Event.apiCall desc ∉ evs

/-- The body of a `projects.locations.instances.list` response: a JSON object
with an optional `instances` collection of records (`INSTANCES_KEY not in
resp` is the `none` case). -/
structure ListResponse where
  instances? : Option (List Record)

/-- The execution context (`models.Context`): this module only reads its
`project_id`. -/
structure Context where
  project_id : String
deriving DecidableEq, Repr

/-- The external collaborators: the capability check `apis.is_enabled(pid,
service)` and, folded together with `apis.get_api`, the outcome of
`query.execute` for the listing call (keyed by project) and for the
`getInstanceHealth` call (keyed by instance name). -/
structure NotebooksEnv where
  is_enabled : String → String → Bool
  list_execute : String → Except HttpError ListResponse
  health_execute : String → Except HttpError Record

/-- The loop body of `get_instances`: for each record, require `NAME_KEY` (else
`RuntimeError`), build the `Instance`, and store it under its `full_path`
(which is exactly the record's `name` value). -/
def buildInstances (pid : String) :
    List Record → List (String × Instance) → Except QueryError (List (String × Instance))
  | [], acc => Except.ok acc
  | r :: rs, acc =>
    match alookup r NAME_KEY with
    | none =>
      Except.error (QueryError.runtimeError
        "missing instance name in projects.locations.instances.list response")
    | some nm => buildInstances pid rs (dictInsert acc nm (Instance.mk pid r))

/-- Embedding of `get_instances(context)`: returns the mapping from full
resource path to `Instance` (or the raised exception) together with the trace
of log lines and issued network calls. -/
def get_instances (env : NotebooksEnv) (context : Context) :
    Except QueryError (List (String × Instance)) × List Event :=
  if env.is_enabled context.project_id "notebooks" then
    let evs : List Event :=
      [Event.logInfo
        ("fetching list of Vertex AI Workbench notebook instances in project "
          ++ context.project_id),
       Event.apiCall
        ("projects.locations.instances.list parent=projects/"
          ++ context.project_id ++ "/locations/-")]
    match env.list_execute context.project_id with
    | Except.error err => (Except.error (QueryError.gcpApiError err), evs)
    | Except.ok resp =>
      match resp.instances? with
      | none => (Except.ok [], evs)
      | some records => (buildInstances context.project_id records [], evs)
  else
    (Except.ok [], [])

/-- Embedding of `get_instance_health_state(context, name)`: returns the health
state (or the raised exception) together with the trace. The initial value
`InstanceHealthStateEnum('HEALTH_STATE_UNSPECIFIED')` is returned on the two
guard paths. -/
def get_instance_health_state (env : NotebooksEnv) (context : Context) (name : String) :
    Except QueryError InstanceHealthStateEnum × List Event :=
  if env.is_enabled context.project_id "notebooks" then
    if name = "" then
      (Except.ok InstanceHealthStateEnum.HEALTH_STATE_UNSPECIFIED,
        [Event.logError "Instance name not provided"])
    else
      let evs : List Event :=
        [Event.logInfo
          ("fetching Vertex AI user-managed notebook instance health state in project "
            ++ context.project_id),
         Event.apiCall ("projects.locations.instances.getInstanceHealth name=" ++ name)]
      match env.health_execute name with
      | Except.error err => (Except.error (QueryError.gcpApiError err), evs)
      | Except.ok resp =>
        match alookup resp HEALTH_STATE_KEY with
        | none =>
          (Except.error (QueryError.runtimeError
            "missing instance health state in projects.locations.instances:getInstanceHealth response"),
           evs)
        | some s =>
          match InstanceHealthStateEnum.ofValue? s with
          | none => (Except.error (QueryError.valueError s), evs)
          | some hs => (Except.ok hs, evs)
  else
    (Except.ok InstanceHealthStateEnum.HEALTH_STATE_UNSPECIFIED,
      [Event.logError "Notebooks API is not enabled"])

/-- Modelled from the spec: the `caching.cached_api_call` decorator (module
`gcpdiag.caching`, not among the sources of this file) memoizes a function by
its full argument tuple for the lifetime of one diagnostic execution context:
the first call with given arguments computes the result, stores it, and emits
that call's events; every later call with identical arguments returns the
previously computed result without invoking the underlying function (so
without re-issuing its network call). -/
def cachedCall {α β : Type} [DecidableEq α] (f : α → β × List Event)
    (cache : List (α × β)) (a : α) : β × List Event × List (α × β) :=
  match alookup cache a with
  | some b => (b, [], cache)
  | none =>
    let r := f a
    (r.1, r.2, (a, r.1) :: cache)

/-- The memoized `get_instances`, as exposed by the decorated function. -/
def get_instances_cached (env : NotebooksEnv)
    (cache : List (Context × (Except QueryError (List (String × Instance)))))
    (context : Context) :
    (Except QueryError (List (String × Instance))) × List Event ×
      List (Context × (Except QueryError (List (String × Instance)))) :=
  cachedCall (fun c => get_instances env c) cache context

/-- The memoized `get_instance_health_state`, keyed by the pair of its
arguments. -/
def get_instance_health_state_cached (env : NotebooksEnv)
    (cache : List ((Context × String) × (Except QueryError InstanceHealthStateEnum)))
    (args : Context × String) :
    (Except QueryError InstanceHealthStateEnum) × List Event ×
      List ((Context × String) × (Except QueryError InstanceHealthStateEnum)) :=
  cachedCall (fun q => get_instance_health_state env q.1 q.2) cache args

/-! Concrete test fixtures used to instantiate the theorems below. -/

/-- A concrete context for the project `p1`. -/
def ctxW : Context := Context.mk "p1"

/-- Environment: API enabled, one well-formed instance record, healthy health
response. -/
def envW : NotebooksEnv :=
  NotebooksEnv.mk (fun _ _ => true)
    (fun _ => Except.ok (ListResponse.mk
      (some [[(NAME_KEY, "projects/p1/locations/l1/instances/i1")]])))
    (fun _ => Except.ok [(HEALTH_STATE_KEY, "HEALTHY")])

/-- Environment: notebooks API disabled. -/
def envOffW : NotebooksEnv :=
  NotebooksEnv.mk (fun _ _ => false)
    (fun _ => Except.error (HttpError.mk 500))
    (fun _ => Except.error (HttpError.mk 500))

/-- Environment: API enabled but every `query.execute` raises an `HttpError`
with code 403. -/
def envErrW : NotebooksEnv :=
  NotebooksEnv.mk (fun _ _ => true)
    (fun _ => Except.error (HttpError.mk 403))
    (fun _ => Except.error (HttpError.mk 403))

/-- Environment: malformed upstream responses — a listing record without a
`name` field and a health response without a `healthState` field. -/
def envBadW : NotebooksEnv :=
  NotebooksEnv.mk (fun _ _ => true)
    (fun _ => Except.ok (ListResponse.mk (some [[("zone", "z1")]])))
    (fun _ => Except.ok [("somethingElse", "x")])

/-- Environment: a health response carrying the unrecognized tag `FOO`. -/
def envFooW : NotebooksEnv :=
  NotebooksEnv.mk (fun _ _ => true)
    (fun _ => Except.ok (ListResponse.mk none))
    (fun _ => Except.ok [(HEALTH_STATE_KEY, "FOO")])

/-- Environment: a listing response holding two records with the same name. -/
def envDupW : NotebooksEnv :=
  NotebooksEnv.mk (fun _ _ => true)
    (fun _ => Except.ok (ListResponse.mk
      (some [[(NAME_KEY, "projects/p1/locations/l1/instances/i1"), ("k", "1")],
             [(NAME_KEY, "projects/p1/locations/l1/instances/i1"), ("k", "2")]])))
    (fun _ => Except.ok [(HEALTH_STATE_KEY, "HEALTHY")])

/-! Helper lemmas about association-list lookup and Python dict insertion. -/

theorem alookup_cons_self {α β : Type} [DecidableEq α] (a : α) (b : β)
    (rest : List (α × β)) : alookup ((a, b) :: rest) a = some b := by
  simp [alookup]

theorem alookup_dictInsert_self {β : Type} (d : List (String × β)) (k : String) (v : β) :
    alookup (dictInsert d k v) k = some v := by
  induction d with
  | nil => simp [dictInsert, alookup]
  | cons kv rest ih =>
    obtain ⟨a, b⟩ := kv
    by_cases ha : a = k
    · subst ha
      simp [dictInsert, alookup]
    · simp [dictInsert, alookup, ha, ih]

theorem alookup_dictInsert_ne {β : Type} (d : List (String × β)) (k k' : String) (v : β)
    (h : k' ≠ k) : alookup (dictInsert d k v) k' = alookup d k' := by
  induction d with
  | nil => simp [dictInsert, alookup, Ne.symm h]
  | cons kv rest ih =>
    obtain ⟨a, b⟩ := kv
    by_cases ha : a = k
    · subst ha
      simp [dictInsert, alookup, Ne.symm h]
    · by_cases ha' : a = k'
      · subst ha'
        simp [dictInsert, alookup, ha]
      · simp [dictInsert, alookup, ha, ha', ih]

theorem cachedCall_repeat {α β : Type} [DecidableEq α] (f : α → β × List Event)
    (cache : List (α × β)) (a : α) :
    cachedCall f (cachedCall f cache a).2.2 a
      = ((cachedCall f cache a).1, [], (cachedCall f cache a).2.2) := by
  unfold cachedCall
  cases h : alookup cache a with
  | some b => simp [h]
  | none => simp [h, alookup_cons_self]

/-! Theorems for the frozen claims. -/

/-- C4: when the capability check reports the notebooks API as not enabled,
`get_instances` returns the empty mapping and `get_instance_health_state`
returns `HEALTH_STATE_UNSPECIFIED`; neither issues a network call nor raises
an error. -/
theorem capability_disabled_defaults (env : NotebooksEnv) (ctx : Context) (name : String)
    (h : env.is_enabled ctx.project_id "notebooks" = false) :
    get_instances env ctx = (Except.ok [], []) ∧
    get_instance_health_state env ctx name
      = (Except.ok InstanceHealthStateEnum.HEALTH_STATE_UNSPECIFIED,
         [Event.logError "Notebooks API is not enabled"]) ∧
    noNetworkCall (get_instances env ctx).2 ∧
    noNetworkCall (get_instance_health_state env ctx name).2 := by
  refine ⟨by simp [get_instances, h], by simp [get_instance_health_state, h], ?_, ?_⟩
  · simp [get_instances, h, noNetworkCall]
  · simp [get_instance_health_state, h, noNetworkCall]

theorem capability_disabled_defaults_witness :
    envOffW.is_enabled ctxW.project_id "notebooks" = false ∧
    (get_instances envOffW ctxW = (Except.ok [], []) ∧
     get_instance_health_state envOffW ctxW "i1"
       = (Except.ok InstanceHealthStateEnum.HEALTH_STATE_UNSPECIFIED,
          [Event.logError "Notebooks API is not enabled"]) ∧
     noNetworkCall (get_instances envOffW ctxW).2 ∧
     noNetworkCall (get_instance_health_state envOffW ctxW "i1").2) :=
  ⟨rfl, capability_disabled_defaults envOffW ctxW "i1" rfl⟩

/-- C5: a call of `get_instance_health_state` with an empty instance
identifier returns `HEALTH_STATE_UNSPECIFIED`, issues no network call, and
logs the reason at error level — `Instance name not provided` when the API is
enabled, otherwise the capability-disabled reason (that guard runs first). -/
theorem empty_name_health_state (env : NotebooksEnv) (ctx : Context) (name : String)
    (h : name = "") :
    (get_instance_health_state env ctx name).1
      = Except.ok InstanceHealthStateEnum.HEALTH_STATE_UNSPECIFIED ∧
    noNetworkCall (get_instance_health_state env ctx name).2 ∧
    (env.is_enabled ctx.project_id "notebooks" = true →
      Event.logError "Instance name not provided"
        ∈ (get_instance_health_state env ctx name).2) ∧
    (env.is_enabled ctx.project_id "notebooks" = false →
      Event.logError "Notebooks API is not enabled"
        ∈ (get_instance_health_state env ctx name).2) := by
  subst h
  by_cases hen : env.is_enabled ctx.project_id "notebooks" = true
  · refine ⟨by simp [get_instance_health_state, hen], ?_, ?_, ?_⟩
    · simp [get_instance_health_state, hen, noNetworkCall]
    · intro _
      simp [get_instance_health_state, hen]
    · intro hoff
      rw [hen] at hoff
      exact absurd hoff (by simp)
  · have hoff : env.is_enabled ctx.project_id "notebooks" = false := by
      cases hb : env.is_enabled ctx.project_id "notebooks" with
      | false => rfl
      | true => exact absurd hb hen
    refine ⟨by simp [get_instance_health_state, hoff], ?_, ?_, ?_⟩
    · simp [get_instance_health_state, hoff, noNetworkCall]
    · intro hon
      exact absurd hon hen
    · intro _
      simp [get_instance_health_state, hoff]

theorem empty_name_health_state_witness :
    ("" : String) = "" ∧
    ((get_instance_health_state envW ctxW "").1
       = Except.ok InstanceHealthStateEnum.HEALTH_STATE_UNSPECIFIED ∧
     noNetworkCall (get_instance_health_state envW ctxW "").2 ∧
     (envW.is_enabled ctxW.project_id "notebooks" = true →
       Event.logError "Instance name not provided"
         ∈ (get_instance_health_state envW ctxW "").2) ∧
     (envW.is_enabled ctxW.project_id "notebooks" = false →
       Event.logError "Notebooks API is not enabled"
         ∈ (get_instance_health_state envW ctxW "").2)) :=
  ⟨rfl, empty_name_health_state envW ctxW "" rfl⟩

/-- C8: both memoized operations, called again with the same argument tuple
within the same execution context, return the previously computed result,
produce no events (in particular no network call), and leave the memo table
unchanged. -/
theorem cached_calls_memoized (env : NotebooksEnv)
    (cache1 : List (Context × (Except QueryError (List (String × Instance)))))
    (cache2 : List ((Context × String) × (Except QueryError InstanceHealthStateEnum)))
    (ctx : Context) (args : Context × String) :
    get_instances_cached env (get_instances_cached env cache1 ctx).2.2 ctx
      = ((get_instances_cached env cache1 ctx).1, [],
         (get_instances_cached env cache1 ctx).2.2) ∧
    get_instance_health_state_cached env
        (get_instance_health_state_cached env cache2 args).2.2 args
      = ((get_instance_health_state_cached env cache2 args).1, [],
         (get_instance_health_state_cached env cache2 args).2.2) :=
  ⟨cachedCall_repeat _ cache1 ctx, cachedCall_repeat _ cache2 args⟩

/-- C10: constructing an `Instance` from a record lacking a `name` field
succeeds and stores the record unvalidated; only the `full_path` and `name`
accessors of such an instance fail (a key-lookup error, modelled by `none`). -/
theorem instance_construction_unvalidated (pid : String) (r : Record)
    (h : alookup r NAME_KEY = none) :
    (Instance.mk pid r).resource_data = r ∧
    (Instance.mk pid r).project_id = pid ∧
    Instance.full_path (Instance.mk pid r) = none ∧
    Instance.name (Instance.mk pid r) = none :=
  ⟨rfl, rfl, h, h⟩

theorem buildInstances_missing_name (pid : String) (rs : List Record) :
    ∀ acc, (∃ r ∈ rs, alookup r NAME_KEY = none) →
    buildInstances pid rs acc
      = Except.error (QueryError.runtimeError
          "missing instance name in projects.locations.instances.list response") := by
  induction rs with
  | nil =>
    intro acc h
    simp at h
  | cons r rs ih =>
    intro acc h
    cases hn : alookup r NAME_KEY with
    | none => simp [buildInstances, hn]
    | some nm =>
      rcases h with ⟨r', hr', hnone⟩
      rcases List.mem_cons.mp hr' with rfl | hmem
      · exact absurd hn (by simp [hnone])
      · simp only [buildInstances, hn]
        exact ih _ ⟨r', hmem, hnone⟩

/-- C2: a listing response containing a record without a `name` field makes
`get_instances` fail with the internal `RuntimeError` (no partial mapping is
returned), and a health response without a `healthState` field makes
`get_instance_health_state` fail with the internal `RuntimeError` rather than
returning any enum value. -/
theorem malformed_response_internal_error (env : NotebooksEnv) (ctx : Context)
    (name : String) (hen : env.is_enabled ctx.project_id "notebooks" = true) :
    (∀ resp records, env.list_execute ctx.project_id = Except.ok resp →
      resp.instances? = some records →
      (∃ r ∈ records, alookup r NAME_KEY = none) →
      (get_instances env ctx).1
        = Except.error (QueryError.runtimeError
            "missing instance name in projects.locations.instances.list response")) ∧
    (∀ resp, name ≠ "" → env.health_execute name = Except.ok resp →
      alookup resp HEALTH_STATE_KEY = none →
      (get_instance_health_state env ctx name).1
        = Except.error (QueryError.runtimeError
            "missing instance health state in projects.locations.instances:getInstanceHealth response")) := by
  constructor
  · intro resp records hexec hrecs hbad
    simp only [get_instances, hen, if_true, hexec, hrecs]
    exact buildInstances_missing_name ctx.project_id records [] hbad
  · intro resp hname hexec hmiss
    simp [get_instance_health_state, hen, hname, hexec, hmiss]

theorem malformed_response_internal_error_witness :
    envBadW.is_enabled ctxW.project_id "notebooks" = true ∧
    (get_instances envBadW ctxW).1
      = Except.error (QueryError.runtimeError
          "missing instance name in projects.locations.instances.list response") ∧
    (get_instance_health_state envBadW ctxW "i1").1
      = Except.error (QueryError.runtimeError
          "missing instance health state in projects.locations.instances:getInstanceHealth response") :=
  ⟨rfl,
   (malformed_response_internal_error envBadW ctxW "i1" rfl).1
     (ListResponse.mk (some [[("zone", "z1")]])) [[("zone", "z1")]] rfl rfl
     ⟨[("zone", "z1")], by simp, by decide⟩,
   (malformed_response_internal_error envBadW ctxW "i1" rfl).2
     [("somethingElse", "x")] (by decide) rfl (by decide)⟩

theorem ofValue_value (t : InstanceHealthStateEnum) :
    InstanceHealthStateEnum.ofValue? t.value = some t := by
  cases t <;> rfl

theorem ofValue_eq_none (s : String)
    (h : ∀ t : InstanceHealthStateEnum, s ≠ t.value) :
    InstanceHealthStateEnum.ofValue? s = none := by
  have h1 := h InstanceHealthStateEnum.HEALTH_STATE_UNSPECIFIED
  have h2 := h InstanceHealthStateEnum.HEALTHY
  have h3 := h InstanceHealthStateEnum.UNHEALTHY
  have h4 := h InstanceHealthStateEnum.AGENT_NOT_INSTALLED
  have h5 := h InstanceHealthStateEnum.AGENT_NOT_RUNNING
  simp only [InstanceHealthStateEnum.value] at h1 h2 h3 h4 h5
  simp [InstanceHealthStateEnum.ofValue?, h1, h2, h3, h4, h5]

/-- C3: a health response whose `healthState` value is the backing string of
one of the five known tags yields exactly that tag; any string outside the
five-tag vocabulary makes the call fail with the `ValueError` of the
validating enum constructor instead of defaulting to any tag. -/
theorem health_state_enum_validation (env : NotebooksEnv) (ctx : Context)
    (name : String) (resp : Record)
    (hen : env.is_enabled ctx.project_id "notebooks" = true)
    (hname : name ≠ "")
    (hexec : env.health_execute name = Except.ok resp) :
    (∀ t : InstanceHealthStateEnum, alookup resp HEALTH_STATE_KEY = some t.value →
      (get_instance_health_state env ctx name).1 = Except.ok t) ∧
    (∀ s, alookup resp HEALTH_STATE_KEY = some s →
      (∀ t : InstanceHealthStateEnum, s ≠ t.value) →
      (get_instance_health_state env ctx name).1
        = Except.error (QueryError.valueError s)) := by
  constructor
  · intro t hval
    simp [get_instance_health_state, hen, hname, hexec, hval, ofValue_value]
  · intro s hval hnot
    simp [get_instance_health_state, hen, hname, hexec, hval, ofValue_eq_none s hnot]

theorem health_state_enum_validation_witness :
    envW.is_enabled ctxW.project_id "notebooks" = true ∧
    envFooW.is_enabled ctxW.project_id "notebooks" = true ∧
    (get_instance_health_state envW ctxW "i1").1
      = Except.ok InstanceHealthStateEnum.HEALTHY ∧
    (get_instance_health_state envFooW ctxW "i1").1
      = Except.error (QueryError.valueError "FOO") :=
  ⟨rfl, rfl,
   (health_state_enum_validation envW ctxW "i1" [(HEALTH_STATE_KEY, "HEALTHY")]
       rfl (by decide) rfl).1
     InstanceHealthStateEnum.HEALTHY (by decide),
   (health_state_enum_validation envFooW ctxW "i1" [(HEALTH_STATE_KEY, "FOO")]
       rfl (by decide) rfl).2
     "FOO" (by decide) (by intro t; cases t <;> decide)⟩

theorem buildInstances_all_named (pid : String) (rs : List Record) :
    ∀ acc, (∀ r ∈ rs, (alookup r NAME_KEY).isSome) →
    ∃ d, buildInstances pid rs acc = Except.ok d ∧
      (∀ k, (alookup d k).isSome
        ↔ ((alookup acc k).isSome ∨ k ∈ rs.filterMap (fun r => alookup r NAME_KEY))) ∧
      (∀ k inst, alookup d k = some inst →
        (alookup acc k = some inst ∨ Instance.full_path inst = some k)) := by
  induction rs with
  | nil =>
    intro acc _
    exact ⟨acc, rfl, fun k => by simp, fun k inst h => Or.inl h⟩
  | cons r rs ih =>
    intro acc h
    obtain ⟨nm, hnm⟩ := Option.isSome_iff_exists.mp (h r (List.mem_cons_self r rs))
    have hrs : ∀ r' ∈ rs, (alookup r' NAME_KEY).isSome :=
      fun r' hr' => h r' (List.mem_cons_of_mem r hr')
    obtain ⟨d, hd, hkeys, hvals⟩ := ih (dictInsert acc nm (Instance.mk pid r)) hrs
    refine ⟨d, by simp only [buildInstances, hnm]; exact hd, ?_, ?_⟩
    · intro k
      rw [hkeys k]
      have hacc : (alookup (dictInsert acc nm (Instance.mk pid r)) k).isSome
          ↔ (k = nm ∨ (alookup acc k).isSome) := by
        by_cases hk : k = nm
        · subst hk
          simp [alookup_dictInsert_self]
        · rw [alookup_dictInsert_ne acc nm k _ hk]
          simp [hk]
      have hfm : List.filterMap (fun r => alookup r NAME_KEY) (r :: rs)
          = nm :: List.filterMap (fun r => alookup r NAME_KEY) rs := by
        simp [hnm]
      rw [hacc, hfm, List.mem_cons]
      tauto
    · intro k inst hlook
      rcases hvals k inst hlook with hacc | hfp
      · by_cases hk : k = nm
        · subst hk
          rw [alookup_dictInsert_self] at hacc
          right
          rw [← Option.some_inj.mp hacc]
          exact hnm
        · rw [alookup_dictInsert_ne acc nm k _ hk] at hacc
          exact Or.inl hacc
      · exact Or.inr hfp

/-- C1: on a listing response all of whose records carry a `name`, the mapping
returned by `get_instances` has exactly the response's `name` values as keys
and each stored `Instance` has its key as `full_path`; a response without an
`instances` collection yields the empty mapping. -/
theorem get_instances_functional (env : NotebooksEnv) (ctx : Context)
    (resp : ListResponse)
    (hen : env.is_enabled ctx.project_id "notebooks" = true)
    (hexec : env.list_execute ctx.project_id = Except.ok resp) :
    (resp.instances? = none → (get_instances env ctx).1 = Except.ok []) ∧
    (∀ records, resp.instances? = some records →
      (∀ r ∈ records, (alookup r NAME_KEY).isSome) →
      ∃ d, (get_instances env ctx).1 = Except.ok d ∧
        (∀ k, (alookup d k).isSome
          ↔ k ∈ records.filterMap (fun r => alookup r NAME_KEY)) ∧
        (∀ k inst, alookup d k = some inst → Instance.full_path inst = some k)) := by
  constructor
  · intro hnone
    simp [get_instances, hen, hexec, hnone]
  · intro records hrecs hnamed
    obtain ⟨d, hd, hkeys, hvals⟩ := buildInstances_all_named ctx.project_id records [] hnamed
    refine ⟨d, ?_, ?_, ?_⟩
    · simp only [get_instances, hen, if_true, hexec, hrecs]
      exact hd
    · intro k
      rw [hkeys k]
      simp [alookup]
    · intro k inst hlook
      rcases hvals k inst hlook with hacc | hfp
      · simp [alookup] at hacc
      · exact hfp

theorem get_instances_functional_witness :
    envW.is_enabled ctxW.project_id "notebooks" = true ∧
    (∃ d, (get_instances envW ctxW).1 = Except.ok d ∧
      (∀ k, (alookup d k).isSome
        ↔ k ∈ ([[(NAME_KEY, "projects/p1/locations/l1/instances/i1")]] :
            List Record).filterMap (fun r => alookup r NAME_KEY)) ∧
      (∀ k inst, alookup d k = some inst → Instance.full_path inst = some k)) :=
  ⟨rfl,
   (get_instances_functional envW ctxW
       (ListResponse.mk (some [[(NAME_KEY, "projects/p1/locations/l1/instances/i1")]]))
       rfl rfl).2
     [[(NAME_KEY, "projects/p1/locations/l1/instances/i1")]] rfl
     (by intro r hr; simp at hr; subst hr; decide)⟩

theorem buildInstances_skip_name (pid : String) (rs : List Record) (nm : String) :
    ∀ acc, (∀ r ∈ rs, (alookup r NAME_KEY).isSome) →
    (∀ r ∈ rs, alookup r NAME_KEY ≠ some nm) →
    ∃ d, buildInstances pid rs acc = Except.ok d ∧ alookup d nm = alookup acc nm := by
  induction rs with
  | nil =>
    intro acc _ _
    exact ⟨acc, rfl, rfl⟩
  | cons r rs ih =>
    intro acc hnamed havoid
    obtain ⟨nm', hnm'⟩ := Option.isSome_iff_exists.mp (hnamed r (List.mem_cons_self r rs))
    have hne : nm ≠ nm' := by
      intro he
      exact havoid r (List.mem_cons_self r rs) (he ▸ hnm')
    obtain ⟨d, hd, hpres⟩ := ih (dictInsert acc nm' (Instance.mk pid r))
      (fun r' hr' => hnamed r' (List.mem_cons_of_mem r hr'))
      (fun r' hr' => havoid r' (List.mem_cons_of_mem r hr'))
    refine ⟨d, by simp only [buildInstances, hnm']; exact hd, ?_⟩
    rw [hpres, alookup_dictInsert_ne acc nm' nm _ hne]

theorem buildInstances_append_split (pid : String) (xs ys : List Record) :
    ∀ acc, (∀ r ∈ xs, (alookup r NAME_KEY).isSome) →
    ∃ acc', buildInstances pid (xs ++ ys) acc = buildInstances pid ys acc' := by
  induction xs with
  | nil =>
    intro acc _
    exact ⟨acc, rfl⟩
  | cons x xs ih =>
    intro acc hnamed
    obtain ⟨nm, hnm⟩ := Option.isSome_iff_exists.mp (hnamed x (List.mem_cons_self x xs))
    obtain ⟨acc', hacc'⟩ := ih (dictInsert acc nm (Instance.mk pid x))
      (fun r' hr' => hnamed r' (List.mem_cons_of_mem x hr'))
    exact ⟨acc', by simp only [List.cons_append, buildInstances, hnm]; exact hacc'⟩

/-- C9: when every record of the listing response carries a `name` and the
name `nm` occurs several times, `get_instances` succeeds and the mapping holds
under `nm` the `Instance` built from the last record named `nm` in response
order — later records silently overwrite earlier ones. -/
theorem get_instances_last_duplicate_wins (env : NotebooksEnv) (ctx : Context)
    (resp : ListResponse) (rs1 rs2 : List Record) (r : Record) (nm : String)
    (hen : env.is_enabled ctx.project_id "notebooks" = true)
    (hexec : env.list_execute ctx.project_id = Except.ok resp)
    (hrecs : resp.instances? = some (rs1 ++ r :: rs2))
    (hnamed : ∀ r' ∈ rs1 ++ r :: rs2, (alookup r' NAME_KEY).isSome)
    (hr : alookup r NAME_KEY = some nm)
    (hlast : ∀ r' ∈ rs2, alookup r' NAME_KEY ≠ some nm) :
    ∃ d, (get_instances env ctx).1 = Except.ok d ∧
      alookup d nm = some (Instance.mk ctx.project_id r) := by
  have hxs : ∀ r' ∈ rs1, (alookup r' NAME_KEY).isSome :=
    fun r' hr' => hnamed r' (List.mem_append_left _ hr')
  have hys : ∀ r' ∈ rs2, (alookup r' NAME_KEY).isSome :=
    fun r' hr' => hnamed r' (List.mem_append_right _ (List.mem_cons_of_mem r hr'))
  obtain ⟨acc', hsplit⟩ := buildInstances_append_split ctx.project_id rs1 (r :: rs2) [] hxs
  obtain ⟨d, hd, hpres⟩ := buildInstances_skip_name ctx.project_id rs2 nm
    (dictInsert acc' nm (Instance.mk ctx.project_id r)) hys hlast
  refine ⟨d, ?_, ?_⟩
  · simp only [get_instances, hen, if_true, hexec, hrecs]
    rw [hsplit]
    simp only [buildInstances, hr]
    exact hd
  · rw [hpres, alookup_dictInsert_self]

theorem get_instances_last_duplicate_wins_witness :
    envDupW.is_enabled ctxW.project_id "notebooks" = true ∧
    (∃ d, (get_instances envDupW ctxW).1 = Except.ok d ∧
      alookup d "projects/p1/locations/l1/instances/i1"
        = some (Instance.mk ctxW.project_id
            [(NAME_KEY, "projects/p1/locations/l1/instances/i1"), ("k", "2")])) :=
  ⟨rfl,
   get_instances_last_duplicate_wins envDupW ctxW
     (ListResponse.mk
       (some [[(NAME_KEY, "projects/p1/locations/l1/instances/i1"), ("k", "1")],
              [(NAME_KEY, "projects/p1/locations/l1/instances/i1"), ("k", "2")]]))
     [[(NAME_KEY, "projects/p1/locations/l1/instances/i1"), ("k", "1")]] []
     [(NAME_KEY, "projects/p1/locations/l1/instances/i1"), ("k", "2")]
     "projects/p1/locations/l1/instances/i1"
     rfl rfl (by simp)
     (by intro r' hr'; simp at hr'; rcases hr' with h | h <;> subst h <;> decide)
     (by decide) (by simp)⟩

/-- C6: an `HttpError` raised while executing the listing call or the health
call is re-raised by `get_instances` / `get_instance_health_state` as the
distinguishable `GcpApiError` carrying the original failure as its cause, and
that error is the call's outcome (not a default result). -/
theorem http_error_wrapped (env : NotebooksEnv) (ctx : Context) (name : String)
    (e e' : HttpError)
    (hen : env.is_enabled ctx.project_id "notebooks" = true) :
    (env.list_execute ctx.project_id = Except.error e →
      (get_instances env ctx).1 = Except.error (QueryError.gcpApiError e)) ∧
    (name ≠ "" → env.health_execute name = Except.error e' →
      (get_instance_health_state env ctx name).1
        = Except.error (QueryError.gcpApiError e')) := by
  constructor
  · intro hexec
    simp [get_instances, hen, hexec]
  · intro hname hexec
    simp [get_instance_health_state, hen, hname, hexec]

theorem http_error_wrapped_witness :
    envErrW.is_enabled ctxW.project_id "notebooks" = true ∧
    (get_instances envErrW ctxW).1
      = Except.error (QueryError.gcpApiError (HttpError.mk 403)) ∧
    (get_instance_health_state envErrW ctxW "i1").1
      = Except.error (QueryError.gcpApiError (HttpError.mk 403)) :=
  ⟨rfl,
   (http_error_wrapped envErrW ctxW "i1" (HttpError.mk 403) (HttpError.mk 403) rfl).1 rfl,
   (http_error_wrapped envErrW ctxW "i1" (HttpError.mk 403) (HttpError.mk 403) rfl).2
     (by decide) rfl⟩

theorem reSubList_nil (pat rep : List Char) : reSubList pat rep [] = [] := by
  simp [reSubList]

theorem reSubList_cons_pos (pat rep : List Char) (c : Char) (rest : List Char)
    (h : pat.isPrefixOf (c :: rest) = true) :
    reSubList pat rep (c :: rest)
      = rep ++ reSubList pat rep (rest.drop (pat.length - 1)) := by
  simp only [reSubList]
  rw [if_pos h]

theorem reSubList_cons_neg (pat rep : List Char) (c : Char) (rest : List Char)
    (h : ¬ pat.isPrefixOf (c :: rest) = true) :
    reSubList pat rep (c :: rest) = c :: reSubList pat rep rest := by
  simp only [reSubList]
  rw [if_neg h]

theorem reSubList_head_ne (p0 : Char) (ps rep : List Char) (c : Char) (s : List Char)
    (h : c ≠ p0) :
    reSubList (p0 :: ps) rep (c :: s) = c :: reSubList (p0 :: ps) rep s := by
  apply reSubList_cons_neg
  intro hpre
  simp only [List.isPrefixOf, Bool.and_eq_true, beq_iff_eq] at hpre
  exact h hpre.1.symm

theorem reSubList_skip (p0 : Char) (ps rep xs s : List Char)
    (h : ∀ c ∈ xs, c ≠ p0) :
    reSubList (p0 :: ps) rep (xs ++ s) = xs ++ reSubList (p0 :: ps) rep s := by
  induction xs with
  | nil => simp
  | cons c xs ih =>
    simp only [List.cons_append]
    rw [reSubList_head_ne p0 ps rep c _ (h c (List.mem_cons_self c xs))]
    rw [ih (fun c' hc' => h c' (List.mem_cons_of_mem c hc'))]

theorem reSubList_unchanged (p0 : Char) (ps rep xs : List Char)
    (h : ∀ c ∈ xs, c ≠ p0) :
    reSubList (p0 :: ps) rep xs = xs := by
  have hs := reSubList_skip p0 ps rep xs [] h
  simpa [reSubList_nil] using hs

theorem reSubList_match (pat rep s : List Char) (hne : pat ≠ []) :
    reSubList pat rep (pat ++ s) = rep ++ reSubList pat rep s := by
  cases pat with
  | nil => exact absurd rfl hne
  | cons p0 ps =>
    have hpre : (p0 :: ps).isPrefixOf (p0 :: (ps ++ s)) = true := by
      rw [show p0 :: (ps ++ s) = (p0 :: ps) ++ s from rfl, List.isPrefixOf_iff_prefix]
      exact ⟨s, rfl⟩
    rw [List.cons_append, reSubList_cons_pos _ _ _ _ hpre]
    congr 1
    rw [show (p0 :: ps).length - 1 = ps.length from by simp, List.drop_left]

theorem reSubList_stuck (p0 : Char) (ps rep t : List Char)
    (hmem : p0 ∈ ps) (ht : ∀ c ∈ t, c ≠ p0) :
    reSubList (p0 :: ps) rep (p0 :: t) = p0 :: t := by
  have hno : ¬ ((p0 :: ps).isPrefixOf (p0 :: t) = true) := by
    intro hpre
    rw [List.isPrefixOf_iff_prefix] at hpre
    rcases hpre with ⟨u, hu⟩
    rw [List.cons_append] at hu
    injection hu with _ h2
    exact ht p0 (List.IsPrefix.subset ⟨u, h2⟩ hmem) rfl
  rw [reSubList_cons_neg _ _ _ _ hno]
  rw [reSubList_unchanged p0 ps rep t ht]

theorem marker_unique : ∀ (a b t : List Char), '/' ∉ a → '/' ∉ b →
    (a ++ ['/']) <+: (b ++ '/' :: t) → a = b := by
  intro a
  induction a with
  | nil =>
    intro b t _ hb h
    cases b with
    | nil => rfl
    | cons d b' =>
      rcases h with ⟨u, hu⟩
      simp only [List.nil_append, List.cons_append] at hu
      injection hu with h1 _
      subst h1
      exact absurd (List.mem_cons_self _ _) hb
  | cons c a' ih =>
    intro b t ha hb h
    cases b with
    | nil =>
      rcases h with ⟨u, hu⟩
      simp only [List.cons_append, List.nil_append] at hu
      injection hu with h1 _
      subst h1
      exact absurd (List.mem_cons_self _ _) ha
    | cons d b' =>
      rcases h with ⟨u, hu⟩
      simp only [List.cons_append] at hu
      injection hu with h1 h2
      subst h1
      have ha' : '/' ∉ a' := fun hc => ha (List.mem_cons_of_mem c hc)
      have hb' : '/' ∉ b' := fun hc => hb (List.mem_cons_of_mem c hc)
      rw [ih b' t ha' hb' ⟨u, h2⟩]

theorem reSubList_seg_ne (aseg bseg rep t : List Char)
    (hA : '/' ∉ aseg) (hB : '/' ∉ bseg) (hne : aseg ≠ bseg) (ht : '/' ∉ t) :
    reSubList ('/' :: (aseg ++ ['/'])) rep ('/' :: (bseg ++ '/' :: t))
      = '/' :: (bseg ++ '/' :: t) := by
  have hno : ¬ (('/' :: (aseg ++ ['/'])).isPrefixOf ('/' :: (bseg ++ '/' :: t)) = true) := by
    intro hpre
    rw [List.isPrefixOf_iff_prefix] at hpre
    rcases hpre with ⟨u, hu⟩
    rw [List.cons_append] at hu
    injection hu with _ h2
    exact hne (marker_unique aseg bseg t hA hB ⟨u, h2⟩)
  rw [reSubList_cons_neg _ _ _ _ hno]
  congr 1
  rw [reSubList_skip _ _ _ bseg _ (fun c hc he => hB (by rw [he] at hc; exact hc))]
  congr 1
  exact reSubList_stuck _ _ _ t (by simp) (fun c hc he => ht (by rw [he] at hc; exact hc))

theorem locations_pass (pd ld id : List Char)
    (hp : '/' ∉ pd) (hl : '/' ∉ ld) (hi : '/' ∉ id) :
    reSubList ('/' :: ("locations".data ++ ['/'])) ['/']
      (pd ++ ('/' :: ("locations".data
        ++ ('/' :: (ld ++ ('/' :: ("instances".data ++ ('/' :: id))))))))
    = pd ++ ('/' :: (ld ++ ('/' :: ("instances".data ++ ('/' :: id))))) := by
  rw [reSubList_skip _ _ _ pd _ (fun c hc he => hp (by rw [he] at hc; exact hc))]
  congr 1
  have harg : ('/' : Char) :: ("locations".data
        ++ ('/' :: (ld ++ ('/' :: ("instances".data ++ ('/' :: id))))))
      = ('/' :: ("locations".data ++ ['/']))
        ++ (ld ++ ('/' :: ("instances".data ++ ('/' :: id)))) := by
    simp [List.append_assoc]
  rw [harg, reSubList_match _ _ _ (by simp)]
  rw [reSubList_skip _ _ _ ld _ (fun c hc he => hl (by rw [he] at hc; exact hc))]
  rw [reSubList_seg_ne "locations".data "instances".data _ id
    (by decide) (by decide) (by decide) hi]
  simp

theorem instances_pass (pd ld id : List Char)
    (hp : '/' ∉ pd) (hl : '/' ∉ ld) (hi : '/' ∉ id) :
    reSubList ('/' :: ("instances".data ++ ['/'])) ['/']
      (pd ++ ('/' :: (ld ++ ('/' :: ("instances".data ++ ('/' :: id))))))
    = pd ++ ('/' :: (ld ++ ('/' :: id))) := by
  rw [reSubList_skip _ _ _ pd _ (fun c hc he => hp (by rw [he] at hc; exact hc))]
  congr 1
  by_cases hcase : ld = "instances".data
  · subst hcase
    have harg : ('/' : Char) :: ("instances".data
          ++ ('/' :: ("instances".data ++ ('/' :: id))))
        = ('/' :: ("instances".data ++ ['/'])) ++ ("instances".data ++ ('/' :: id)) := by
      simp [List.append_assoc]
    rw [harg, reSubList_match _ _ _ (by simp)]
    rw [reSubList_skip _ _ _ ("instances".data) _
      (fun c hc he => (by decide : ('/' : Char) ∉ "instances".data) (by rw [he] at hc; exact hc))]
    rw [reSubList_stuck _ _ _ id (by simp) (fun c hc he => hi (by rw [he] at hc; exact hc))]
    simp
  · have hno : ¬ ((('/' :: ("instances".data ++ ['/'])).isPrefixOf
        ('/' :: (ld ++ ('/' :: ("instances".data ++ ('/' :: id)))))) = true) := by
      intro hpre
      rw [List.isPrefixOf_iff_prefix] at hpre
      rcases hpre with ⟨u, hu⟩
      rw [List.cons_append] at hu
      injection hu with _ h2
      exact hcase (marker_unique "instances".data ld _ (by decide) hl ⟨u, h2⟩).symm
    rw [reSubList_cons_neg _ _ _ _ hno]
    congr 1
    rw [reSubList_skip _ _ _ ld _ (fun c hc he => hl (by rw [he] at hc; exact hc))]
    congr 1
    have harg2 : ('/' : Char) :: ("instances".data ++ ('/' :: id))
        = ('/' :: ("instances".data ++ ['/'])) ++ id := by
      simp [List.append_assoc]
    rw [harg2, reSubList_match _ _ _ (by simp)]
    rw [reSubList_unchanged _ _ _ id (fun c hc he => hi (by rw [he] at hc; exact hc))]
    simp

theorem reSubStart_append (pat s : List Char) : reSubStart pat (pat ++ s) = s := by
  have h : pat.isPrefixOf (pat ++ s) = true := by
    rw [List.isPrefixOf_iff_prefix]
    exact ⟨s, rfl⟩
  unfold reSubStart
  rw [if_pos h]
  exact List.drop_left pat s

theorem shortPath_data (pd ld id : List Char)
    (hp : '/' ∉ pd) (hl : '/' ∉ ld) (hi : '/' ∉ id) :
    reSubList "/instances/".data ['/']
      (reSubList "/locations/".data ['/']
        (reSubStart "projects/".data
          ("projects/".data ++ (pd ++ ("/locations/".data
            ++ (ld ++ ("/instances/".data ++ id)))))))
    = pd ++ ('/' :: (ld ++ ('/' :: id))) := by
  rw [reSubStart_append]
  have hL : "/locations/".data = '/' :: ("locations".data ++ ['/']) := rfl
  have hI : "/instances/".data = '/' :: ("instances".data ++ ['/']) := rfl
  have hshape : pd ++ ("/locations/".data ++ (ld ++ ("/instances/".data ++ id)))
      = pd ++ ('/' :: ("locations".data
          ++ ('/' :: (ld ++ ('/' :: ("instances".data ++ ('/' :: id))))))) := by
    rw [hL, hI]
    simp [List.append_assoc]
  rw [hshape, hL, locations_pass pd ld id hp hl hi, hI,
    instances_pass pd ld id hp hl hi]

theorem data_reSub (pat rep s : String) :
    (reSub pat rep s).data = reSubList pat.data rep.data s.data := rfl

theorem data_reSubAnchored (pat s : String) :
    (reSubAnchored pat s).data = reSubStart pat.data s.data := rfl

/-- C7: for an `Instance` whose record's `name` holds the full path
`projects/(p)/locations/(l)/instances/(i)` with slash-free segments,
`short_path` strips the leading `projects/` label and replaces the
`/locations/` and `/instances/` segment labels with `/`, yielding
`(p)/(l)/(i)`; in particular `projects/p1/locations/l1/instances/i1` yields
`p1/l1/i1` (the witness below). -/
theorem short_path_strips_labels (pid p l i : String)
    (hp : '/' ∉ p.data) (hl : '/' ∉ l.data) (hi : '/' ∉ i.data) :
    Instance.short_path (Instance.mk pid
        [(NAME_KEY, "projects/" ++ p ++ "/locations/" ++ l ++ "/instances/" ++ i)])
      = some (p ++ "/" ++ l ++ "/" ++ i) := by
  have hfull : Instance.full_path (Instance.mk pid
        [(NAME_KEY, "projects/" ++ p ++ "/locations/" ++ l ++ "/instances/" ++ i)])
      = some ("projects/" ++ p ++ "/locations/" ++ l ++ "/instances/" ++ i) := by
    simp [Instance.full_path, alookup]
  simp only [Instance.short_path, hfull, Option.map_some']
  congr 1
  apply String.ext
  rw [data_reSub, data_reSub, data_reSubAnchored]
  have hdata : ("projects/" ++ p ++ "/locations/" ++ l ++ "/instances/" ++ i).data
      = "projects/".data ++ (p.data ++ ("/locations/".data
          ++ (l.data ++ ("/instances/".data ++ i.data)))) := by
    simp [String.data_append, List.append_assoc]
  have htgt : (p ++ "/" ++ l ++ "/" ++ i).data
      = p.data ++ ("/".data ++ (l.data ++ ("/".data ++ i.data))) := by
    simp [String.data_append, List.append_assoc]
  have hsl : ("/" : String).data = ['/'] := rfl
  rw [hdata, htgt, hsl]
  simp only [List.singleton_append]
  exact shortPath_data p.data l.data i.data hp hl hi

theorem short_path_strips_labels_witness :
    ('/' ∉ "p1".data) ∧ ('/' ∉ "l1".data) ∧ ('/' ∉ "i1".data) ∧
    Instance.short_path (Instance.mk "p1"
        [(NAME_KEY, "projects/p1/locations/l1/instances/i1")])
      = some "p1/l1/i1" := by
  refine ⟨by decide, by decide, by decide, ?_⟩
  have h := short_path_strips_labels "p1" "p1" "l1" "i1" (by decide) (by decide) (by decide)
  have e1 : ("projects/" ++ "p1" ++ "/locations/" ++ "l1" ++ "/instances/" ++ "i1" : String)
      = "projects/p1/locations/l1/instances/i1" := by decide
  have e2 : ("p1" ++ "/" ++ "l1" ++ "/" ++ "i1" : String) = "p1/l1/i1" := by decide
  rw [← e1, ← e2]
  exact h

theorem instance_construction_unvalidated_witness :
    alookup [("zone", "z1")] NAME_KEY = none ∧
    ((Instance.mk "p1" [("zone", "z1")]).resource_data = [("zone", "z1")] ∧
     (Instance.mk "p1" [("zone", "z1")]).project_id = "p1" ∧
     Instance.full_path (Instance.mk "p1" [("zone", "z1")]) = none ∧
     Instance.name (Instance.mk "p1" [("zone", "z1")]) = none) :=
  ⟨by decide, instance_construction_unvalidated "p1" [("zone", "z1")] (by decide)⟩

end Notebooks
